import Mathlib

/-!
Verification development for the starlight rules engine.

The definitions below are a shallow embedding of `src/game.rs` and
`src/board.rs`.  Rust enums become Lean inductives, the 36-slot piece
array becomes a function `Fin 36 → Piece`, in-place mutation becomes
explicit state passing, and every code path that can panic
(`unwrap`, `unreachable!`, failed `assert!`, array-index overflow or a
non-terminating sibling walk) is modelled by an `Option` result whose
`none` case stands for the abnormal termination of the process.
-/

set_option maxRecDepth 4000
set_option synthInstance.maxSize 2048

namespace Starlight

/-- Piece sizes, `Size` in game.rs (`Small = 0`, `Medium = 1`, `Large = 2`). -/
inductive Size
  | small
  | medium
  | large
deriving DecidableEq

/-- Piece colors, `Color` in game.rs (`Red = 0`, `Yellow = 1`, `Green = 2`, `Blue = 3`). -/
inductive Color
  | red
  | yellow
  | green
  | blue
deriving DecidableEq

/-- Discriminant of `Size` as in the Rust `repr(u8)`. -/
def Size.toNat : Size → Nat
  | .small => 0
  | .medium => 1
  | .large => 2

/-- Discriminant of `Color` as in the Rust `repr(u8)`. -/
def Color.toNat : Color → Nat
  | .red => 0
  | .yellow => 1
  | .green => 2
  | .blue => 3

/-- The `Ord::max` of two sizes via their discriminants. -/
def sizeMax (a b : Size) : Size :=
  if a.toNat ≤ b.toNat then b else a

/-- The two players, `Player` in game.rs. -/
inductive Player
  | white
  | black
deriving DecidableEq

/-- `Player::inv`: the other player. -/
def Player.inv : Player → Player
  | .white => .black
  | .black => .white

/-- Abilities, `Ability` in game.rs. -/
inductive Ability
  | attack
  | move
  | construct
  | transform
deriving DecidableEq

/-- `Ability::for_color`: the transmute of a color discriminant into an ability. -/
def abilityFor : Color → Ability
  | .red => .attack
  | .yellow => .move
  | .green => .construct
  | .blue => .transform

/-- `Size::sacrifice_turns`: `self as u8 + 1`. -/
def sacrificeTurns (s : Size) : Nat := s.toNat + 1

/-- Turn phases, `Special` in game.rs.  The sacrifice counter is a `u8`. -/
inductive Special
  | move
  | star1
  | star2
  | ship
  | sacrifice (count : Nat) (a : Ability)
deriving DecidableEq

/-- A turn, `Turn` in game.rs. -/
structure Turn where
  player : Player
  special : Special
deriving DecidableEq

/-- `Turn::initial`. -/
def Turn.initial : Turn := ⟨.white, .star1⟩

/-- `Turn::next`, arm for arm as in game.rs.  The `Sacrifice(1, _)` arm is
matched before the generic sacrifice arm; the `v - 1` of the generic arm is
`u8` subtraction, which for the (unreachable in practice) `v = 0` case is
modelled by truncated `Nat` subtraction. -/
def Turn.next (t : Turn) : Turn :=
  match t.player, t.special with
  | p, .move => ⟨p.inv, .move⟩
  | p, .star1 => ⟨p, .star2⟩
  | p, .star2 => ⟨p, .ship⟩
  | .white, .ship => ⟨.black, .star1⟩
  | .black, .ship => ⟨.white, .move⟩
  | p, .sacrifice v a => if v = 1 then ⟨p.inv, .move⟩ else ⟨p, .sacrifice (v - 1) a⟩

/-- Slot keys 0..35, `Key` in game.rs restricted to the board's bounds. -/
abbrev Key := Fin 36

/-- `Key::size`: `(key % 9) / 3` transmuted to a size. -/
def keySize (k : Key) : Size :=
  if k.val % 9 / 3 = 0 then .small
  else if k.val % 9 / 3 = 1 then .medium
  else .large

/-- `Key::color`: `key / 9` transmuted to a color. -/
def keyColor (k : Key) : Color :=
  if k.val / 9 = 0 then .red
  else if k.val / 9 = 1 then .yellow
  else if k.val / 9 = 2 then .green
  else .blue

/-- A ship, `Ship` in game.rs. -/
structure Ship where
  parent : Key
  sibling : Key
  player : Player
deriving DecidableEq

/-- A board slot, `Piece` in game.rs.  `KeyMaybe` becomes `Option Key`. -/
inductive Piece
  | bank
  | star (child : Key)
  | binaryFirst (child : Option Key) (sibling : Option Key)
  | binarySecond (sibling : Key)
  | ship (s : Ship)
deriving DecidableEq

/-- The 36-slot piece array, `Board` in game.rs. -/
abbrev Board := Key → Piece

/-- Writing one slot of the board (`IndexMut` on `Board`). -/
def updB (b : Board) (k : Key) (p : Piece) : Board :=
  fun x => if x = k then p else b x

/-- One walk of `SiblingIter`: starting at `k` with ring home `home`, collect
`(ship, key)` pairs until the next pointer returns to `home`.  A slot that is
not a ship is the iterator's `unreachable!` (modelled `none`); exhausting the
fuel means the walk revisits a key without passing `home`, i.e. the Rust
iterator never terminates (also `none`).  36 fuel suffices for every
terminating walk since the board has 36 slots. -/
def siblingWalk (b : Board) (home : Key) : Nat → Key → Option (List (Ship × Key))
  | 0, _ => none
  | fuel + 1, k =>
    match b k with
    | .ship s =>
      if s.sibling = home then some [(s, k)]
      else
        match siblingWalk b home fuel s.sibling with
        | none => none
        | some rest => some ((s, k) :: rest)
    | _ => none

/-- `Board::sibling_iter(start)` collected into a list. -/
def siblingList (b : Board) (start : Key) : Option (List (Ship × Key)) :=
  siblingWalk b start 36 start

/-- `KeyRange::new(start, start+len)` as the list of valid keys it yields. -/
def keyRange (start len : Nat) : List Key :=
  (List.range len).filterMap fun i =>
    if h : start + i < 36 then some ⟨start + i, h⟩ else none

/-- `KeyRange::with_color`. -/
def keysWithColor (c : Color) : List Key := keyRange (c.toNat * 9) 9

/-- `KeyRange::with_color_and_size`. -/
def keysWithColorAndSize (c : Color) (s : Size) : List Key :=
  keyRange (c.toNat * 9 + s.toNat * 3) 3

/-- `KeyRange::all`. -/
def keysAll : List Key := keyRange 0 36

/-- The game state, `Game` in game.rs. -/
structure Game where
  board : Board
  turn : Turn
  movingPiece : Option Key
  repetitionCount : Nat
  wstar : Option Key
  bstar : Option Key
deriving DecidableEq

/-- `Game::new`. -/
def gameNew : Game :=
  { board := fun _ => .bank
    turn := Turn.initial
    movingPiece := none
    repetitionCount := 0
    wstar := none
    bstar := none }

/-- The move alphabet, `Move` in game.rs. -/
inductive GMove
  | attack (k : Key)
  | construct (k : Key)
  | transform (k : Key) (c : Color)
  | sacrifice (k : Key)
  | moveInit (k : Key)
  | moveFinish (k : Key)
  | select (s : Size) (c : Color)
  | catastrophe (k : Key)
  | pass
deriving DecidableEq

/-- The phase admission shared by attack/construct/transform/move-init:
`Special::Move` gives `is_sacrifice = false`, a sacrifice of the matching
ability gives `true`, anything else rejects (`none` here means the Rust
`_ => return false` arm, not a panic). -/
def sacPhase (sp : Special) (ab : Ability) : Option Bool :=
  match sp with
  | .move => some false
  | .sacrifice _ a => if a = ab then some true else none
  | _ => none

/-- The body of `process_attack`'s sibling loop.  `none` is the early
`return false` on a lower-key enemy duplicate; otherwise the accumulated
`(has_color, attack_size)` pair is threaded exactly as the Rust loop
mutates it. -/
def attackScan (p : Player) (tkey : Key) :
    List (Ship × Key) → Bool × Size → Option (Bool × Size)
  | [], acc => some acc
  | (sh, sk) :: rest, (hc, asz) =>
    if sh.player = p then
      attackScan p tkey rest
        (hc || decide (keyColor sk = Color.red), sizeMax asz (keySize sk))
    else
      if sk < tkey ∧ keySize sk = keySize tkey ∧ keyColor sk = keyColor tkey then none
      else attackScan p tkey rest (hc, asz)

/-- The body of `process_construct`'s sibling loop. -/
def constructScan (p : Player) (tkey : Key) :
    List (Ship × Key) → Bool → Option Bool
  | [], hc => some hc
  | (sh, sk) :: rest, hc =>
    if sh.player = p then
      if sk < tkey ∧ keyColor sk = keyColor tkey then none
      else constructScan p tkey rest (hc || decide (keyColor sk = Color.green))
    else constructScan p tkey rest hc

/-- The body of `process_transform`'s sibling loop; the `(Key × Ship)`
accumulator is the `pkey`/`pship` pair, updated on every iteration before
the friendliness test, as in the source. -/
def transformScan (p : Player) (tkey : Key) :
    List (Ship × Key) → Bool → Key × Ship → Option (Bool × Key × Ship)
  | [], hc, pk => some (hc, pk)
  | (sh, sk) :: rest, hc, _ =>
    if sh.player = p then
      if sk < tkey ∧ keyColor sk = keyColor tkey ∧ keySize sk = keySize tkey then none
      else transformScan p tkey rest (hc || decide (keyColor sk = Color.blue)) (sk, sh)
    else transformScan p tkey rest hc (sk, sh)

/-- The body of `process_sacrifice`'s sibling loop. -/
def sacScan (p : Player) (tkey : Key) :
    List (Ship × Key) → Key × Ship → Option (Key × Ship)
  | [], pk => some pk
  | (sh, sk) :: rest, _ =>
    if sh.player = p ∧ sk < tkey ∧ keySize sk = keySize tkey ∧ keyColor sk = keyColor tkey
    then none
    else sacScan p tkey rest (sk, sh)

/-- The body of `process_move_init`'s sibling loop. -/
def moveInitScan (p : Player) (tkey : Key) :
    List (Ship × Key) → Bool → Option Bool
  | [], hc => some hc
  | (sh, sk) :: rest, hc =>
    if sh.player = p then
      if sk < tkey ∧ keySize sk = keySize tkey ∧ keyColor sk = keyColor tkey then none
      else moveInitScan p tkey rest (hc || decide (keyColor sk = Color.yellow))
    else moveInitScan p tkey rest hc

/-- `Game::remove_ship_and_maybe_star`, with the source's write order.  The
`unreachable!` arms (the star slot holding neither a `Star` nor a
`BinaryFirst`) are `none`. -/
def removeShipAndMaybeStar (b : Board) (shkey : Key) (shprvship : Ship)
    (shprvkey shnxtkey stkey : Key) : Option Board :=
  let b1 := updB b shkey .bank
  if shkey = shprvkey then
    match b1 stkey with
    | .star _ => some (updB b1 stkey .bank)
    | .binaryFirst _ sib => some (updB b1 stkey (.binaryFirst none sib))
    | _ => none
  else
    let b2 := updB b1 shprvkey (.ship { shprvship with sibling := shnxtkey })
    match b2 stkey with
    | .star _ => some (updB b2 stkey (.star shnxtkey))
    | .binaryFirst _ sib => some (updB b2 stkey (.binaryFirst (some shnxtkey) sib))
    | _ => none

/-- `Game::get_star_sizes`; its `unreachable!` arms are `none`. -/
def getStarSizes (b : Board) (tkey : Key) : Option (Size × Size) :=
  match b tkey with
  | .star _ => some (keySize tkey, keySize tkey)
  | .binaryFirst _ sib =>
    match sib with
    | none => some (keySize tkey, keySize tkey)
    | some skey =>
      match b skey with
      | .binarySecond _ => some (keySize tkey, keySize skey)
      | _ => none
  | _ => none

/-- Entries of the catastrophe removal list, `CatEntry` in `process_catastrophe`. -/
inductive CatEntry
  | shipE (me pkey : Key) (pship : Ship) (nkey : Key)
  | otherE (k : Key)
deriving DecidableEq

/-- The `match self.board[shship.parent]` block of `process_catastrophe`
collecting the star entries, in push order; its `unreachable!` arm is `none`. -/
def catParentEntries (b : Board) (shkey parent : Key) : Option (List CatEntry) :=
  match b parent with
  | .star _ =>
    some (if keyColor parent = keyColor shkey then [.otherE parent] else [])
  | .binaryFirst _ sib =>
    some ((if keyColor parent = keyColor shkey then [.otherE parent] else []) ++
      (match sib with
       | some v => if keyColor v = keyColor shkey then [.otherE v] else []
       | none => []))
  | .binarySecond sib =>
    some ((if keyColor sib = keyColor shkey then [.otherE sib] else []) ++
      (if keyColor parent = keyColor shkey then [.otherE parent] else []))
  | _ => none

/-- The sibling loop of `process_catastrophe` collecting the ship entries;
`pkey`/`pship` start at the target and are updated after each iteration. -/
def catScan (c : Color) (pkey : Key) (pship : Ship) :
    List (Ship × Key) → List CatEntry
  | [] => []
  | (sship, skey) :: rest =>
    (if keyColor skey = c then [CatEntry.shipE skey pkey pship sship.sibling] else []) ++
      catScan c skey sship rest

/-- One step of the removal loop of `process_catastrophe`. -/
def applyCatEntry (b : Board) : CatEntry → Option Board
  | .shipE me pk psh nk => removeShipAndMaybeStar b me psh pk nk psh.parent
  | .otherE k =>
    match b k with
    | .bank => some b
    | .star child =>
      let b1 := updB b k .bank
      match siblingList b1 child with
      | none => none
      | some l => some (l.foldl (fun bb pr => updB bb pr.2 Piece.bank) b1)
    | .binarySecond sib =>
      let b1 := updB b k .bank
      match b1 sib with
      | .binaryFirst child _ => some (updB b1 sib (.binaryFirst child none))
      | _ => none
    | .binaryFirst child sib =>
      let b1 := updB b k .bank
      match sib with
      | some v => some (updB b1 v (.binaryFirst child none))
      | none => some b1
    | .ship _ => none

/-- The removal loop of `process_catastrophe` over the (already reversed)
entry list. -/
def catRemoveAll : Board → List CatEntry → Option Board
  | b, [] => some b
  | b, e :: rest =>
    match applyCatEntry b e with
    | none => none
    | some b' => catRemoveAll b' rest

/-- `Game::process_catastrophe`.  A list longer than the `ArrayVec`
capacity 36 is the capacity-overflow panic. -/
def processCatastrophe (g : Game) (shkey : Key) : Option (Bool × Game) :=
  match g.board shkey with
  | .ship shship =>
    match catParentEntries g.board shkey shship.parent with
    | none => none
    | some parentEntries =>
      match siblingList g.board shship.sibling with
      | none => none
      | some sibs =>
        let catlist := parentEntries ++ catScan (keyColor shkey) shkey shship sibs
        if 36 < catlist.length then none
        else if catlist.length < 4 then some (false, g)
        else
          match catRemoveAll g.board catlist.reverse with
          | none => none
          | some b' => some (true, { g with board := b' })
  | _ => some (false, g)

/-- `Game::force_catastrophes`, iterating keys in ascending order and
ignoring each result's flag. -/
def forceCatGo : Game → List Key → Option Game
  | g, [] => some g
  | g, k :: rest =>
    match processCatastrophe g k with
    | none => none
    | some r => forceCatGo r.2 rest

/-- `Game::force_catastrophes`. -/
def forceCatastrophes (g : Game) : Option Game := forceCatGo g keysAll

/-- `Game::advance`: when the successor turn changes player the forced
catastrophe sweep runs first, then the turn is set. -/
def advance (g : Game) : Option Game :=
  let nt := g.turn.next
  if nt.player ≠ g.turn.player then
    match forceCatastrophes g with
    | none => none
    | some g' => some { g' with turn := nt }
  else some { g with turn := nt }

/-- `Game::process_attack`. -/
def processAttack (g : Game) (tkey : Key) : Option (Bool × Game) :=
  if g.movingPiece.isSome then some (false, g)
  else
    match sacPhase g.turn.special .attack with
    | none => some (false, g)
    | some isSac =>
      match g.board tkey with
      | .ship tship =>
        if tship.player = g.turn.player then some (false, g)
        else
          match siblingList g.board tkey with
          | none => none
          | some sibs =>
            match attackScan g.turn.player tkey sibs
                (isSac || decide (keyColor tship.parent = Color.red), Size.small) with
            | none => some (false, g)
            | some (hasColor, attackSize) =>
              if hasColor = false ∨ attackSize.toNat < (keySize tkey).toNat then
                some (false, g)
              else
                let b1 := updB g.board tkey (.ship { tship with player := g.turn.player })
                match advance { g with board := b1 } with
                | none => none
                | some g2 => some (true, g2)
      | _ => some (false, g)

/-- `Game::process_construct`. -/
def processConstruct (g : Game) (tkey : Key) : Option (Bool × Game) :=
  if g.movingPiece.isSome then some (false, g)
  else
    match sacPhase g.turn.special .construct with
    | none => some (false, g)
    | some isSac =>
      match g.board tkey with
      | .ship tship =>
        if tship.player = g.turn.player then
          match siblingList g.board tkey with
          | none => none
          | some sibs =>
            match constructScan g.turn.player tkey sibs
                (isSac || decide (keyColor tship.parent = Color.green)) with
            | none => some (false, g)
            | some hasColor =>
              if hasColor = false then some (false, g)
              else
                match (keysWithColor (keyColor tkey)).find?
                    (fun k => decide (g.board k = Piece.bank)) with
                | none => some (false, g)
                | some nkey =>
                  let b1 := updB g.board tkey
                    (.ship ⟨tship.parent, nkey, g.turn.player⟩)
                  let b2 := updB b1 nkey
                    (.ship ⟨tship.parent, tship.sibling, g.turn.player⟩)
                  match advance { g with board := b2 } with
                  | none => none
                  | some g2 => some (true, g2)
        else some (false, g)
      | _ => some (false, g)

/-- `Game::process_transform`.  The `assert!(pship.sibling == tkey)` is the
`none` case after the scan. -/
def processTransform (g : Game) (tkey : Key) (tcolor : Color) : Option (Bool × Game) :=
  if g.movingPiece.isSome then some (false, g)
  else
    match sacPhase g.turn.special .transform with
    | none => some (false, g)
    | some isSac =>
      match g.board tkey with
      | .ship tship =>
        if tship.player = g.turn.player then
          match siblingList g.board tkey with
          | none => none
          | some sibs =>
            match transformScan g.turn.player tkey sibs
                (isSac || decide (keyColor tship.parent = Color.blue)) (tkey, tship) with
            | none => some (false, g)
            | some (hasColor, pkey, pship) =>
              if hasColor = false then some (false, g)
              else
                match (keysWithColorAndSize tcolor (keySize tkey)).find?
                    (fun k => decide (g.board k = Piece.bank)) with
                | none => some (false, g)
                | some nkey =>
                  if pship.sibling = tkey then
                    let b1 := updB g.board pkey (.ship { pship with sibling := nkey })
                    let b2 := updB b1 tkey .bank
                    let b3 := updB b2 nkey (.ship tship)
                    match advance { g with board := b3 } with
                    | none => none
                    | some g2 => some (true, g2)
                  else none
        else some (false, g)
      | _ => some (false, g)

/-- `Game::process_sacrifice`. -/
def processSacrifice (g : Game) (tkey : Key) : Option (Bool × Game) :=
  if g.movingPiece.isSome then some (false, g)
  else
    match g.turn.special with
    | .move =>
      match g.board tkey with
      | .ship tship =>
        if tship.player = g.turn.player then
          match siblingList g.board tkey with
          | none => none
          | some sibs =>
            match sacScan g.turn.player tkey sibs (tkey, tship) with
            | none => some (false, g)
            | some (pkey, pship) =>
              match removeShipAndMaybeStar g.board tkey pship pkey
                  tship.sibling tship.parent with
              | none => none
              | some b' =>
                some (true,
                  { g with
                    board := b'
                    turn := { g.turn with
                      special := .sacrifice (sacrificeTurns (keySize tkey))
                        (abilityFor (keyColor tkey)) } })
        else some (false, g)
      | _ => some (false, g)
    | _ => some (false, g)

/-- `Game::process_move_init`: on success only the moving-piece marker is set. -/
def processMoveInit (g : Game) (tkey : Key) : Option (Bool × Game) :=
  if g.movingPiece.isSome then some (false, g)
  else
    match sacPhase g.turn.special .move with
    | none => some (false, g)
    | some isSac =>
      match g.board tkey with
      | .ship tship =>
        if tship.player = g.turn.player then
          match siblingList g.board tkey with
          | none => none
          | some sibs =>
            match moveInitScan g.turn.player tkey sibs
                (isSac || decide (keyColor tship.parent = Color.yellow)) with
            | none => some (false, g)
            | some hasColor =>
              if hasColor = false then some (false, g)
              else some (true, { g with movingPiece := some tkey })
        else some (false, g)
      | _ => some (false, g)

/-- The tail of `process_move_finish` after the target star's child key has
been read.  Mirrors the source line by line; note that the source never
clears `moving_piece`. -/
def moveFinishCore (g : Game) (tstarKey fkey : Key) (tchild : Option Key) :
    Option (Bool × Game) :=
  match g.board fkey with
  | .ship fship =>
    match getStarSizes g.board fship.parent with
    | none => none
    | some fsizes =>
      match getStarSizes g.board tstarKey with
      | none => none
      | some tsizes =>
        if fsizes.1 = tsizes.1 ∨ fsizes.1 = tsizes.2 ∨
            fsizes.2 = tsizes.1 ∨ fsizes.2 = tsizes.2 then
          some (false, g)
        else
          match siblingList g.board fkey with
          | none => none
          | some sibs =>
            match sibs.getLast? with
            | none => none
            | some (pship, pkey) =>
              match removeShipAndMaybeStar g.board fkey pship pkey
                  fship.sibling fship.parent with
              | none => none
              | some b1 =>
                match tchild with
                | some tckey =>
                  match b1 tckey with
                  | .ship tcship =>
                    let b2 := updB b1 tckey (.ship { tcship with sibling := fkey })
                    let b3 := updB b2 fkey
                      (.ship ⟨tcship.parent, tcship.sibling, g.turn.player⟩)
                    match advance { g with board := b3 } with
                    | none => none
                    | some g2 => some (true, g2)
                  | _ => none
                | none =>
                  match b1 tstarKey with
                  | .star _ =>
                    let b2 := updB b1 tstarKey (.star fkey)
                    let b3 := updB b2 fkey (.ship ⟨tstarKey, fkey, g.turn.player⟩)
                    match advance { g with board := b3 } with
                    | none => none
                    | some g2 => some (true, g2)
                  | .binaryFirst _ sib =>
                    let b2 := updB b1 tstarKey (.binaryFirst (some fkey) sib)
                    let b3 := updB b2 fkey (.ship ⟨tstarKey, fkey, g.turn.player⟩)
                    match advance { g with board := b3 } with
                    | none => none
                    | some g2 => some (true, g2)
                  | _ => none
  | _ => none

/-- `Game::process_move_finish`. -/
def processMoveFinish (g : Game) (tstarKey : Key) : Option (Bool × Game) :=
  match g.movingPiece with
  | none => some (false, g)
  | some fkey =>
    match g.board tstarKey with
    | .star child => moveFinishCore g tstarKey fkey (some child)
    | .binaryFirst child _ => moveFinishCore g tstarKey fkey child
    | _ => some (false, g)

/-- `Game::star_for` as a reader: the source ignores its argument and keys
off `self.turn.player`. -/
def getStarFor (g : Game) : Option Key :=
  match g.turn.player with
  | .white => g.wstar
  | .black => g.bstar

/-- Writing the current player's home-star reference. -/
def setStarFor (g : Game) (k : Option Key) : Game :=
  match g.turn.player with
  | .white => { g with wstar := k }
  | .black => { g with bstar := k }

/-- `Game::process_select`.  The source's `.find(..).unwrap()` on the slot
search and `.get().unwrap()` on the home star are the `none` cases. -/
def processSelect (g : Game) (size : Size) (color : Color) : Option (Bool × Game) :=
  if g.turn.special = .star1 ∨ g.turn.special = .star2 ∨ g.turn.special = .ship then
    match (keysWithColorAndSize color size).find?
        (fun k => decide (g.board k = Piece.bank)) with
    | none => none
    | some tkey =>
      match g.turn.special with
      | .star1 =>
        let g1 := setStarFor { g with board := updB g.board tkey (.binaryFirst none none) }
          (some tkey)
        some (true, { g1 with turn := g1.turn.next })
      | .star2 =>
        match getStarFor g with
        | none => none
        | some star =>
          let b1 := updB g.board tkey (.binarySecond star)
          let b2 := updB b1 star (.binaryFirst none (some tkey))
          some (true, { g with board := b2, turn := g.turn.next })
      | .ship =>
        match getStarFor g with
        | none => none
        | some star =>
          let b1 := updB g.board tkey (.ship ⟨star, tkey, g.turn.player⟩)
          match b1 star with
          | .binaryFirst _ sib =>
            let b2 := updB b1 star (.binaryFirst (some tkey) sib)
            some (true, { g with board := b2, turn := g.turn.next })
          | _ => none
      | _ => none
  else some (false, g)

/-- `Game::process_pass`: sets the turn unconditionally, then sweeps. -/
def processPass (g : Game) : Option Game :=
  forceCatastrophes { g with turn := ⟨g.turn.player.inv, Special.move⟩ }

/-- `Game::process_move`. -/
def processMove (g : Game) (m : GMove) : Option (Bool × Game) :=
  match m with
  | .attack k => processAttack g k
  | .construct k => processConstruct g k
  | .transform k c => processTransform g k c
  | .sacrifice k => processSacrifice g k
  | .moveInit k => processMoveInit g k
  | .moveFinish k => processMoveFinish g k
  | .select s c => processSelect g s c
  | .catastrophe k => processCatastrophe g k
  | .pass =>
    match processPass g with
    | none => none
    | some g2 => some (true, g2)

/-- Applying a sequence of moves, threading the state and ignoring each
acceptance flag, as a caller of `process_move` does. -/
def applySeq : Game → List GMove → Option Game
  | g, [] => some g
  | g, m :: rest =>
    match processMove g m with
    | none => none
    | some r => applySeq r.2 rest

/-- Applying a move sequence and then one further move, keeping the final
move's flag. -/
def applyThen (g : Game) (ms : List GMove) (m : GMove) : Option (Bool × Game) :=
  match applySeq g ms with
  | none => none
  | some g' => processMove g' m

/-- `Color::list`. -/
def colorList : List Color := [.red, .yellow, .green, .blue]

/-- `Size::list`. -/
def sizeList : List Size := [.small, .medium, .large]

/-- `MOVE_COUNT` in game.rs. -/
def MOVE_COUNT : Nat := 338

/-- The moves generated by the `MOVES` initializer, in the order the
source pushes them (attack, construct, transform over the three non-own
colors, sacrifice, move-init, move-finish, the 12 selects, catastrophe,
and the single trailing pass). -/
def genMoves : List GMove :=
  (keysAll.map GMove.attack) ++
  (keysAll.map GMove.construct) ++
  (keysAll.map (fun k =>
    (colorList.filter (fun c => decide (c ≠ keyColor k))).map (GMove.transform k))).flatten ++
  (keysAll.map GMove.sacrifice) ++
  (keysAll.map GMove.moveInit) ++
  (keysAll.map GMove.moveFinish) ++
  (sizeList.map (fun s => colorList.map (GMove.select s))).flatten ++
  (keysAll.map GMove.catastrophe) ++
  [GMove.pass]

/-- The `MOVES` static: a 338-slot array initialized with `Pass`, filled by
`genMoves`, followed by `assert!(i == MOVE_COUNT)`.  Writing past the array
or a failed assertion panics the lazy initializer (`none`). -/
def movesTable : Option (List GMove) :=
  if genMoves.length ≤ MOVE_COUNT then
    if genMoves.length = MOVE_COUNT then
      some (genMoves ++ List.replicate (MOVE_COUNT - genMoves.length) GMove.pass)
    else none
  else none

end Starlight

namespace StarlightBank

/-!
The bank and the 16-bit move encoding live in `src/board.rs`, which has its
own `Size` and `Color` with the `repr(u8)` values `0,1,2` and `0,16,32,48`.
-/

/-- `Size` in board.rs. -/
inductive BSize
  | small
  | medium
  | large
deriving DecidableEq, Fintype

/-- `Color` in board.rs. -/
inductive BColor
  | red
  | yellow
  | green
  | blue
deriving DecidableEq, Fintype

/-- The `repr(u8)` discriminant of a board.rs size. -/
def BSize.toRaw : BSize → Nat
  | .small => 0
  | .medium => 1
  | .large => 2

/-- The `repr(u8)` discriminant of a board.rs color (`c << 4`). -/
def BColor.toRaw : BColor → Nat
  | .red => 0
  | .yellow => 16
  | .green => 32
  | .blue => 48

/-- `Bank::new()`: the packed `u32` counter word starts at `0xFFFF_FFFF`. -/
def bankNew : Nat := 0xFFFFFFFF

/-- `Bank::index`: `(size as u32) * (((color as u32) >> 4) + 1)`. -/
def bankIndex (s : BSize) (c : BColor) : Nat :=
  s.toRaw * (c.toRaw / 16 + 1)

/-- `Bank::available`: the 2-bit field at the cell's index is nonzero. -/
def bankAvailable (b : Nat) (s : BSize) (c : BColor) : Bool :=
  decide (b &&& (3 <<< bankIndex s c) ≠ 0)

/-- `Bank::get`: on success the counter word decreases by `1 << index`
(never underflowing, since the guard requires a nonzero field there);
`none` is the `Err` outcome. -/
def bankGet (b : Nat) (s : BSize) (c : BColor) : Option Nat :=
  if b &&& (3 <<< bankIndex s c) ≠ 0 then some (b - (1 <<< bankIndex s c)) else none

/-- `Bank::put`: increments unless the field is saturated. -/
def bankPut (b : Nat) (s : BSize) (c : BColor) : Option Nat :=
  if b &&& (3 <<< bankIndex s c) ≠ (3 <<< bankIndex s c) then
    some (b + (1 <<< bankIndex s c))
  else none

/-- The remaining count of a cell: the 2-bit field its index addresses. -/
def bankCount (b : Nat) (s : BSize) (c : BColor) : Nat :=
  (b >>> bankIndex s c) &&& 3

/-- `MoveData` in board.rs (the wire-format alphabet; `Move` there is the
two-payload movement code).  Keys are `u8` payloads. -/
inductive MoveDataB
  | attack (piece : Nat)
  | move (piece system : Nat)
  | construct (piece : Nat)
  | transform (piece : Nat) (color : BColor)
  | sacrifice (piece : Nat)
  | select (size : BSize) (color : BColor)
  | catastrophe (piece : Nat)
  | pass
deriving DecidableEq

/-- Representable move data per the wire format: key payloads in `0..36`. -/
def MoveDataB.valid : MoveDataB → Prop
  | .attack p => p < 36
  | .move p s => p < 36 ∧ s < 36
  | .construct p => p < 36
  | .transform p _ => p < 36
  | .sacrifice p => p < 36
  | .select _ _ => True
  | .catastrophe p => p < 36
  | .pass => True

/-- `Move::new`: the 16-bit encoding (tag in the top 3 bits). -/
def moveNew : MoveDataB → Nat
  | .attack p => (0 <<< 13) ||| p
  | .move p s => (1 <<< 13) ||| (p <<< 7) ||| s
  | .construct p => (2 <<< 13) ||| p
  | .transform p c => (3 <<< 13) ||| (p <<< 7) ||| c.toRaw
  | .sacrifice p => (4 <<< 13) ||| p
  | .select sz c => (5 <<< 13) ||| (sz.toRaw <<< 7) ||| c.toRaw
  | .catastrophe p => (6 <<< 13) ||| p
  | .pass => 7 <<< 13

/-- The inverse of the color transmute in `Move::data`; an out-of-range
raw byte is undefined behaviour in the source, modelled `none`. -/
def colorOfRaw (n : Nat) : Option BColor :=
  if n = 0 then some .red
  else if n = 16 then some .yellow
  else if n = 32 then some .green
  else if n = 48 then some .blue
  else none

/-- The inverse of the size transmute in `Move::data`. -/
def sizeOfRaw (n : Nat) : Option BSize :=
  if n = 0 then some .small
  else if n = 1 then some .medium
  else if n = 2 then some .large
  else none

/-- `Move::data`: decodes the tag and the 6/7-bit payload fields. -/
def moveData (v : Nat) : Option MoveDataB :=
  let b3 := (v &&& 0xE000) >>> 13
  let b6 := (v &&& 0x1F80) >>> 7
  let b7 := v &&& 0x7F
  if b3 = 0 then some (.attack b7)
  else if b3 = 1 then some (.move b6 b7)
  else if b3 = 2 then some (.construct b7)
  else if b3 = 3 then (colorOfRaw b7).map (MoveDataB.transform b6)
  else if b3 = 4 then some (.sacrifice b7)
  else if b3 = 5 then
    match sizeOfRaw b6, colorOfRaw b7 with
    | some sz, some c => some (.select sz c)
    | _, _ => none
  else if b3 = 6 then some (.catastrophe b7)
  else some .pass

end StarlightBank

namespace Starlight

/-!
Concrete scenarios used by the claim theorems below.  Each move sequence
starts from `gameNew` and every move in it is accepted.
-/

/-- A complete setup (six selects) followed by an accepted move-init of
White's ship (key 24, at its yellow home star), so that the move-in-progress
marker is set.  White's home is a (small, medium) binary, Black's a
(large, large) binary, making the two systems connected. -/
def c1Setup : List GMove :=
  [ .select .small .yellow, .select .medium .red, .select .large .green,
    .select .large .blue, .select .large .green, .select .small .blue,
    .moveInit 24 ]

/-- White selecting small-red three times in a row during setup exhausts all
three small-red slots (keys 0, 1, 2). -/
def c3Setup : List GMove :=
  [ .select .small .red, .select .small .red, .select .small .red ]

/-- Setup with White's home a green binary carrying a medium blue ship,
then an accepted Construct (adding the small blue ship at key 27), a Black
pass, and White's sacrifice of the medium blue ship, leaving White in the
phase `Sacrifice(2, Transform)` with its star's child pointing at key 27. -/
def c6Setup : List GMove :=
  [ .select .small .green, .select .medium .green, .select .medium .blue,
    .select .small .yellow, .select .medium .yellow, .select .large .yellow,
    .construct 30, .pass, .sacrifice 30 ]

/-- A well-formed position: a binary system of two small red stars
(keys 0 and 1) holding White ships small-red (key 2), large-red (key 6) and
small-blue (key 27) in a closed sibling ring 2 → 6 → 27 → 2. -/
def c7Board : Board :=
  updB (updB (updB (updB (updB (fun _ => Piece.bank)
    0 (.binaryFirst (some 2) (some 1)))
    1 (.binarySecond 0))
    2 (.ship ⟨0, 6, .white⟩))
    6 (.ship ⟨0, 27, .white⟩))
    27 (.ship ⟨0, 2, .white⟩)

/-- The game state around `c7Board`, in White's action phase. -/
def c7State : Game :=
  { board := c7Board
    turn := ⟨.white, .move⟩
    movingPiece := none
    repetitionCount := 0
    wstar := none
    bstar := none }

/-- The state reached from a fresh game by Pass: only the turn moves to
(Black, Action); the sweep over the empty board removes nothing. -/
def passState : Game := { gameNew with turn := ⟨Player.black, Special.move⟩ }

/-- A single red star (key 0) holding one lone Black small-red ship
(key 1); White to act, nothing in motion. -/
def c10State : Game :=
  { board := updB (updB (fun _ => Piece.bank) 0 (.star 1)) 1 (.ship ⟨0, 1, .black⟩)
    turn := ⟨.white, .move⟩
    movingPiece := none
    repetitionCount := 0
    wstar := none
    bstar := none }

/-- The sibling ring of the target ship in `c10State`: just the lone enemy
ship itself. -/
def c10Sibs : List (Ship × Key) := [(⟨0, 1, .black⟩, 1)]

/-- The state after White's accepted attack in `c10State`: the target ship's
owner flips and the turn passes to Black. -/
def c10Res : Game :=
  { c10State with
    board := updB c10State.board 1 (.ship ⟨0, 1, .white⟩)
    turn := ⟨.black, .move⟩ }

/-!
Helper lemmas.
-/

/-- A rejected attack leaves the state unchanged. -/
theorem processAttack_rejected {g : Game} {k : Key} {g' : Game}
    (h : processAttack g k = some (false, g')) : g' = g := by
  unfold processAttack at h
  repeat' split at h
  all_goals try simp_all
  all_goals repeat' split at h
  all_goals simp_all

/-- A rejected construct leaves the state unchanged. -/
theorem processConstruct_rejected {g : Game} {k : Key} {g' : Game}
    (h : processConstruct g k = some (false, g')) : g' = g := by
  unfold processConstruct at h
  repeat' split at h
  all_goals try simp_all
  all_goals repeat' split at h
  all_goals simp_all

/-- A rejected transform leaves the state unchanged. -/
theorem processTransform_rejected {g : Game} {k : Key} {c : Color} {g' : Game}
    (h : processTransform g k c = some (false, g')) : g' = g := by
  unfold processTransform at h
  repeat' split at h
  all_goals try simp_all
  all_goals repeat' split at h
  all_goals simp_all

/-- A rejected sacrifice leaves the state unchanged. -/
theorem processSacrifice_rejected {g : Game} {k : Key} {g' : Game}
    (h : processSacrifice g k = some (false, g')) : g' = g := by
  unfold processSacrifice at h
  repeat' split at h
  all_goals simp_all

/-- A rejected move-init leaves the state unchanged. -/
theorem processMoveInit_rejected {g : Game} {k : Key} {g' : Game}
    (h : processMoveInit g k = some (false, g')) : g' = g := by
  unfold processMoveInit at h
  repeat' split at h
  all_goals simp_all

/-- A rejected move-finish core leaves the state unchanged. -/
theorem moveFinishCore_rejected {g : Game} {t f : Key} {tc : Option Key} {g' : Game}
    (h : moveFinishCore g t f tc = some (false, g')) : g' = g := by
  unfold moveFinishCore at h
  repeat' split at h
  all_goals try simp_all
  all_goals repeat' split at h
  all_goals simp_all

/-- A rejected move-finish leaves the state unchanged. -/
theorem processMoveFinish_rejected {g : Game} {k : Key} {g' : Game}
    (h : processMoveFinish g k = some (false, g')) : g' = g := by
  unfold processMoveFinish at h
  repeat' split at h
  all_goals first
    | simp_all
    | exact moveFinishCore_rejected h

/-- A rejected select leaves the state unchanged. -/
theorem processSelect_rejected {g : Game} {s : Size} {c : Color} {g' : Game}
    (h : processSelect g s c = some (false, g')) : g' = g := by
  unfold processSelect at h
  repeat' split at h
  all_goals try simp_all
  all_goals repeat' split at h
  all_goals simp_all

/-- A rejected catastrophe leaves the state unchanged. -/
theorem processCatastrophe_rejected {g : Game} {k : Key} {g' : Game}
    (h : processCatastrophe g k = some (false, g')) : g' = g := by
  unfold processCatastrophe at h
  repeat' split at h
  all_goals try simp_all
  all_goals repeat' split at h
  all_goals simp_all

/-- A catastrophe only rewrites board slots: the turn and the
move-in-progress marker survive. -/
theorem processCatastrophe_frame {g : Game} {k : Key} {r : Bool × Game}
    (h : processCatastrophe g k = some r) :
    r.2.turn = g.turn ∧ r.2.movingPiece = g.movingPiece := by
  unfold processCatastrophe at h
  repeat' split at h
  all_goals try (dsimp only [] at h)
  all_goals repeat' split at h
  all_goals try (injection h with h2; subst h2)
  all_goals first
    | exact ⟨rfl, rfl⟩
    | injection h

/-- The forced catastrophe sweep only rewrites board slots. -/
theorem forceCatGo_frame :
    ∀ (ks : List Key) (g g' : Game), forceCatGo g ks = some g' →
      g'.turn = g.turn ∧ g'.movingPiece = g.movingPiece := by
  intro ks
  induction ks with
  | nil =>
    intro g g' h
    unfold forceCatGo at h
    cases h
    exact ⟨rfl, rfl⟩
  | cons k rest ih =>
    intro g g' h
    unfold forceCatGo at h
    split at h
    · exact absurd h (by simp)
    · next r heq =>
      obtain ⟨h1, h2⟩ := processCatastrophe_frame heq
      obtain ⟨h3, h4⟩ := ih r.2 g' h
      exact ⟨h3.trans h1, h4.trans h2⟩

/-- The attack sibling loop is the identity on its accumulator when every
sibling is enemy-owned and no lower-key enemy duplicate of the target's
(size, color) is present. -/
theorem attackScan_all_enemy (p : Player) (tkey : Key) :
    ∀ (l : List (Ship × Key)) (acc : Bool × Size),
      (∀ x ∈ l, x.1.player ≠ p) →
      (∀ x ∈ l, ¬(x.2 < tkey ∧ keySize x.2 = keySize tkey ∧ keyColor x.2 = keyColor tkey)) →
      attackScan p tkey l acc = some acc := by
  intro l
  induction l with
  | nil => intro acc _ _; rfl
  | cons hd rest ih =>
    intro acc h1 h2
    obtain ⟨sh, sk⟩ := hd
    obtain ⟨hc, asz⟩ := acc
    unfold attackScan
    rw [if_neg (h1 (sh, sk) (List.mem_cons_self _ _)),
        if_neg (h2 (sh, sk) (List.mem_cons_self _ _))]
    exact ih (hc, asz) (fun x hx => h1 x (List.mem_cons_of_mem _ hx))
      (fun x hx => h2 x (List.mem_cons_of_mem _ hx))

end Starlight

namespace Starlight

/-- C8: whenever applying any of the eight move kinds returns Rejected
(`some (false, g')`), the resulting observable game state — board slots,
turn, move-in-progress marker and homestar references — is exactly the
state before the attempt. -/
theorem rejected_moves_leave_state_unchanged (g : Game) (m : GMove) (g' : Game)
    (h : processMove g m = some (false, g')) : g' = g := by
  cases m with
  | attack k => exact processAttack_rejected h
  | construct k => exact processConstruct_rejected h
  | transform k c => exact processTransform_rejected h
  | sacrifice k => exact processSacrifice_rejected h
  | moveInit k => exact processMoveInit_rejected h
  | moveFinish k => exact processMoveFinish_rejected h
  | select s c => exact processSelect_rejected h
  | catastrophe k => exact processCatastrophe_rejected h
  | pass =>
    have h' : (match processPass g with
      | none => none
      | some g2 => some (true, g2)) = some ((false : Bool), g') := h
    split at h' <;> simp_all

/-- Witness for C8: an attack on an empty slot of the fresh game is
rejected, and the theorem applied there yields the unchanged state. -/
theorem rejected_moves_leave_state_unchanged_witness :
    processMove gameNew (GMove.attack 0) = some (false, gameNew) ∧ gameNew = gameNew :=
  ⟨by decide, rejected_moves_leave_state_unchanged gameNew (GMove.attack 0) gameNew (by decide)⟩

/-- C1 (code bug): an accepted MoveFinish does not clear the
move-in-progress marker.  After a complete setup and an accepted
MoveInit of ship 24, the MoveFinish to star 33 is accepted yet the
marker still holds key 24. -/
theorem moveFinish_leaves_marker_set :
    (applyThen gameNew c1Setup (GMove.moveFinish 33)).map
      (fun r => (r.1, r.2.movingPiece)) = some (true, some 24) := by decide

/-- C2 (code bug): the `MOVES` initializer generates only 337 moves into the
338-slot array, so its `assert!(i == MOVE_COUNT)` fails and the table is
never constructed. -/
theorem moves_table_assert_fails : genMoves.length = 337 ∧ movesTable = none := by
  constructor <;> decide

/-- C3 (code bug): after White selects small-red three times (occupying keys
0, 1 and 2), the three setup moves themselves succeed, but Black's
Select(small, red) hits `find(..).unwrap()` on an exhausted range and
panics instead of returning Rejected. -/
theorem select_with_no_empty_slot_panics :
    (applySeq gameNew c3Setup).isSome = true ∧
    applyThen gameNew c3Setup (GMove.select .small .red) = none := by
  constructor <;> decide

/-- Counterexample to C4: in the fresh game, whose phase is Setup-Star1 (not
Action), Pass is nevertheless accepted and changes the state, setting the
turn to (Black, Action). -/
theorem pass_accepted_in_setup_phase :
    gameNew.turn.special = Special.star1 ∧
    (processMove gameNew GMove.pass).map
      (fun r => (r.1, r.2.turn.player, r.2.turn.special)) =
      some (true, Player.black, Special.move) := by
  constructor <;> decide

/-- C4 as amended: Pass is accepted in every phase, not only Action; whenever
applying Pass returns a result it is Accepted, with the turn set to
(opponent, Action) after running the forced catastrophe sweep. -/
theorem pass_always_accepted_flips_turn (g : Game) (r : Bool × Game)
    (h : processMove g GMove.pass = some r) :
    r.1 = true ∧ r.2.turn.player = g.turn.player.inv ∧ r.2.turn.special = Special.move := by
  have h' : (match processPass g with
    | none => none
    | some g2 => some (true, g2)) = some r := h
  unfold processPass at h'
  split at h'
  · exact absurd h' (by simp)
  · next g2 heq =>
    obtain ⟨h1, _⟩ := forceCatGo_frame keysAll _ g2 heq
    injection h' with h2
    subst h2
    refine ⟨rfl, ?_, ?_⟩
    · rw [h1]
    · rw [h1]

/-- Witness for the amended C4, applied to the fresh game. -/
theorem pass_always_accepted_flips_turn_witness :
    passState.turn.player = gameNew.turn.player.inv ∧ passState.turn.special = Special.move :=
  (pass_always_accepted_flips_turn gameNew (true, passState) (by decide)).2

/-- C6 (code bug): the accepted Transform of the star's only ship (during a
transform-sacrifice, so no sweep runs) leaves the star's child pointing at
the now-empty slot 27: the sibling walk from the child hits a non-ship slot
instead of closing a ring. -/
theorem transform_breaks_sibling_ring :
    (applyThen gameNew c6Setup (GMove.transform 27 .red)).map
      (fun r => (r.1, r.2.board 18, r.2.board 27, siblingList r.2.board 27)) =
      some (true, .binaryFirst (some 27) (some 21), .bank, none) := by decide

/-- C7 (code bug): an accepted Catastrophe that removes both stars of a
binary system (keys 0 and 1) leaves ships of that system on the board:
the blue bystander ship survives at key 27 and the red cluster ship at
key 2 is even resurrected by a stale predecessor write, both with their
parent pointing at the emptied slot 0. -/
theorem catastrophe_strips_stars_but_leaves_ships :
    (processCatastrophe c7State 2).map
      (fun r => (r.1, r.2.board 0, r.2.board 1, r.2.board 2, r.2.board 6, r.2.board 27)) =
      some (true, .bank, .bank, .ship ⟨0, 27, .white⟩, .bank, .ship ⟨0, 6, .white⟩) := by
  decide

/-- C10: in the Attack legality check the maximum friendly size defaults to
Small, so in the Action phase with nothing in motion, an opponent-owned
small ship at a red star whose system holds no friendly ship and no
lower-key enemy duplicate of its (size, color) is always a legal target:
the attempt is never rejected. -/
theorem attack_defaults_to_small_accepted (g : Game) (tkey : Key) (tship : Ship)
    (sibs : List (Ship × Key)) (r : Bool × Game)
    (hmov : g.movingPiece = none)
    (hphase : g.turn.special = Special.move)
    (hship : g.board tkey = Piece.ship tship)
    (howner : ¬tship.player = g.turn.player)
    (hred : keyColor tship.parent = Color.red)
    (hsize : keySize tkey = Size.small)
    (hsibs : siblingList g.board tkey = some sibs)
    (henemy : ∀ x ∈ sibs, x.1.player ≠ g.turn.player)
    (hcanon : ∀ x ∈ sibs, ¬(x.2 < tkey ∧ keySize x.2 = keySize tkey ∧ keyColor x.2 = keyColor tkey))
    (hr : processAttack g tkey = some r) : r.1 = true := by
  unfold processAttack at hr
  simp only [hmov, hphase, hship, hsibs, sacPhase, howner,
    Option.isSome_none, Bool.false_eq_true, if_false, ite_false, eq_self_iff_true] at hr
  rw [attackScan_all_enemy g.turn.player tkey sibs _ henemy hcanon] at hr
  simp only [hred, hsize, eq_self_iff_true, decide_True, Bool.false_or, Bool.or_true,
    Nat.lt_irrefl, or_self, Bool.true_eq_false, if_false, ite_false] at hr
  split at hr
  · exact absurd hr (by simp)
  · injection hr with h2
    subst h2
    rfl

/-- Witness for C10: a lone enemy small-red ship at a red star is attacked
and the attempt is accepted. -/
theorem attack_defaults_to_small_accepted_witness :
    ((true, c10Res) : Bool × Game).1 = true ∧
    c10State.board 1 = Piece.ship ⟨0, 1, .black⟩ ∧ keySize 1 = Size.small :=
  ⟨attack_defaults_to_small_accepted c10State 1 ⟨0, 1, .black⟩ c10Sibs (true, c10Res)
      rfl rfl (by decide) (by decide) (by decide) (by decide) (by decide)
      (by decide) (by decide) (by decide),
    by decide, by decide⟩

end Starlight

namespace StarlightBank

/-- C5 (code bug): the bank's twelve cells are not independent, because
`Bank::index` maps the distinct cells (small, red) and (small, yellow) to the
same bit position: a successful take of (small, red) from the fresh bank drops
the remaining count of (small, yellow) from 3 to 2. -/
theorem bank_counters_alias :
    bankIndex .small .red = bankIndex .small .yellow ∧
    bankGet bankNew .small .red = some 0xFFFFFFFE ∧
    bankCount bankNew .small .yellow = 3 ∧
    bankCount 0xFFFFFFFE .small .yellow = 2 := by decide

/-- C9: for every representable MoveData value (keys in 0..36, colors and
sizes in range), decoding the 16-bit encoding yields the original value:
`decode (encode m) = m` for all eight move kinds. -/
theorem move_encoding_roundtrip (m : MoveDataB) (h : m.valid) :
    moveData (moveNew m) = some m := by
  cases m with
  | attack p =>
    exact (show ∀ q : Fin 36, moveData (moveNew (.attack q.val)) = some (.attack q.val)
      by decide) ⟨p, h⟩
  | move p s =>
    exact (show ∀ q t : Fin 36, moveData (moveNew (.move q.val t.val)) = some (.move q.val t.val)
      by decide) ⟨p, h.1⟩ ⟨s, h.2⟩
  | construct p =>
    exact (show ∀ q : Fin 36, moveData (moveNew (.construct q.val)) = some (.construct q.val)
      by decide) ⟨p, h⟩
  | transform p c =>
    exact (show ∀ (q : Fin 36) (c : BColor),
        moveData (moveNew (.transform q.val c)) = some (.transform q.val c)
      by decide) ⟨p, h⟩ c
  | sacrifice p =>
    exact (show ∀ q : Fin 36, moveData (moveNew (.sacrifice q.val)) = some (.sacrifice q.val)
      by decide) ⟨p, h⟩
  | select sz c =>
    exact (show ∀ (sz : BSize) (c : BColor),
        moveData (moveNew (.select sz c)) = some (.select sz c) by decide) sz c
  | catastrophe p =>
    exact (show ∀ q : Fin 36, moveData (moveNew (.catastrophe q.val)) = some (.catastrophe q.val)
      by decide) ⟨p, h⟩
  | pass => decide

/-- Witness for C9 at a concrete two-payload movement code. -/
theorem move_encoding_roundtrip_witness :
    (MoveDataB.move 5 7).valid ∧ moveData (moveNew (.move 5 7)) = some (.move 5 7) :=
  ⟨⟨by decide, by decide⟩, move_encoding_roundtrip (.move 5 7) ⟨by decide, by decide⟩⟩

end StarlightBank
